import Mathlib

set_option maxRecDepth 4000

/-!
Verification of the `MatchingCoveredGraph` construction layer
(`src/sage/graphs/matching_covered_graph.py`) against its design
specification.

The Python class is a thin wrapper over an external `Graph` collaborator:
`__init__` dispatches on the type of `data`, `_upgrade_from_graph` delegates
the certification question to `Graph.is_matching_covered`, and `allow_loops`
forbids turning the loop flag on.  The wrapper code is embedded directly;
the external collaborator (`Graph.__init__`, `Graph.is_matching_covered`,
`GenericGraph.add_edge`) is not part of the visible source and is modelled
from the specification, as marked on each such definition.

Vertices are natural numbers; an edge is an ordered pair standing for an
unordered pair; graphs are finite edge lists plus the loop-policy flag.
-/

namespace Sage

/-- Equality of `Except` results is decidable, so claims can be checked on
concrete inputs by evaluation. -/
instance exceptDecEq {ε α : Type} [DecidableEq ε] [DecidableEq α] :
    DecidableEq (Except ε α)
  | .error a, .error b =>
      if h : a = b then .isTrue (by rw [h])
      else .isFalse (fun hh => h (Except.error.inj hh))
  | .error _, .ok _ => .isFalse (fun hh => Except.noConfusion hh)
  | .ok _, .error _ => .isFalse (fun hh => Except.noConfusion hh)
  | .ok a, .ok b =>
      if h : a = b then .isTrue (by rw [h])
      else .isFalse (fun hh => h (Except.ok.inj hh))

/-- The solver-selection arguments of the constructor (`algorithm`,
`solver`, `verbose`, `integrality_tolerance`).  The spec declares the two
matching algorithms behaviourally equivalent and the remaining knobs
non-semantic, so the model threads these options through without
inspecting them. -/
structure Opts where
  algorithm : String
  solver : Option String
  verbose : Nat
  integrality_tolerance : Rat
deriving DecidableEq

/-- The defaults of `MatchingCoveredGraph.__init__`. -/
def defaultOpts : Opts :=
  { algorithm := "Edmonds", solver := none, verbose := 0,
    integrality_tolerance := 1 / 1000 }

/-- The state of a Sage graph object as far as this module observes it:
vertex list, edge list, and the loop-policy flag (`allows_loops()`). -/
structure Graph where
  vertices : List Nat
  edges : List (Nat × Nat)
  loops : Bool
deriving DecidableEq

/-- Does `v` lie on the edge `e`? -/
def covers (v : Nat) (e : Nat × Nat) : Bool :=
  v == e.1 || v == e.2

/-- Membership of an unordered edge in an edge list (either orientation). -/
def edgeMem (e : Nat × Nat) (es : List (Nat × Nat)) : Bool :=
  es.any (fun f => (f.1 == e.1 && f.2 == e.2) || (f.1 == e.2 && f.2 == e.1))

/-- Two edges share no endpoint. -/
def nonadjacent (e f : Nat × Nat) : Bool :=
  e.1 != f.1 && e.1 != f.2 && e.2 != f.1 && e.2 != f.2

/-- A list of edges is a matching: pairwise no shared endpoints
(spec 4.3, check (a)). -/
def isMatching : List (Nat × Nat) → Bool
  | [] => true
  | e :: es => es.all (fun f => nonadjacent e f) && isMatching es

/-- Every listed edge is an edge of the graph (spec 4.3, check (b)). -/
def isMatchingOfGraph (G : Graph) (M : List (Nat × Nat)) : Bool :=
  M.all (fun e => edgeMem e G.edges)

/-- The listed edges cover every vertex of the graph (spec 4.3, check (c)). -/
def coversAll (G : Graph) (M : List (Nat × Nat)) : Bool :=
  G.vertices.all (fun v => M.any (fun e => covers v e))

/-- `M` is a perfect matching of `G`. -/
def isPerfectMatchingOf (G : Graph) (M : List (Nat × Nat)) : Bool :=
  isMatching M && isMatchingOfGraph G M && coversAll G M

/-- Modelled from the spec: the Matching Finder
(`find_perfect_matching(graph) -> Matching | NotFound`, spec 4.1).  The
model searches the sublists of the edge list; the result contract (a
perfect matching or a definitive NotFound) is all the validator uses. -/
def find_perfect_matching (G : Graph) : Option (List (Nat × Nat)) :=
  G.edges.sublists.find? (fun M => isPerfectMatchingOf G M)

/-- The graph admits a perfect matching. -/
def hasPerfectMatching (G : Graph) : Bool :=
  (find_perfect_matching G).isSome

/-- Some perfect matching of `G` contains the edge `e`. -/
def existsPMContaining (G : Graph) (e : Nat × Nat) : Bool :=
  G.edges.sublists.any (fun M => isPerfectMatchingOf G M && edgeMem e M)

/-- Per-edge verdict of the certifier (spec 3: Edge Verdict). -/
inductive Verdict where
  | inMatching
  | allowed
  | forbidden
deriving DecidableEq

/-- Modelled from the spec: the Alternating-Reachability Certifier
(`classify_edges(graph, matching) -> mapping(edge -> Verdict)`, spec 4.2).
A matching edge is IN_MATCHING; a non-matching edge is ALLOWED iff some
perfect matching contains it (the spec accepts the direct forced-edge test
as functionally equivalent to alternating reachability), else FORBIDDEN. -/
def classify_edges (G : Graph) (M : List (Nat × Nat)) :
    List ((Nat × Nat) × Verdict) :=
  G.edges.map (fun e =>
    (e, if edgeMem e M then Verdict.inMatching
        else if existsPMContaining G e then Verdict.allowed
        else Verdict.forbidden))

/-- No edge of the certification run is FORBIDDEN (spec 4.3, step 3). -/
def noForbidden (G : Graph) (M : List (Nat × Nat)) : Bool :=
  (classify_edges G M).all (fun p => decide (p.2 ≠ Verdict.forbidden))

/-- Every edge of the graph lies in some perfect matching (the
matching-covered property itself). -/
def certifyAll (G : Graph) : Bool :=
  G.edges.all (fun e => existsPMContaining G e)

/-- The edge list contains a self-loop. -/
def hasLoopEdge (G : Graph) : Bool :=
  G.edges.any (fun e => e.1 == e.2)

/-- The edge list is free of self-loops. -/
def loopFree (G : Graph) : Bool :=
  G.edges.all (fun e => e.1 != e.2)

/-- Every edge endpoint is a listed vertex (well-formedness of the
external graph store). -/
def wfEdges (G : Graph) : Bool :=
  G.edges.all (fun e => G.vertices.contains e.1 && G.vertices.contains e.2)

/-- `u` and `v` are joined by an edge. -/
def adjacent (G : Graph) (u v : Nat) : Bool :=
  G.edges.any (fun e => (e.1 == u && e.2 == v) || (e.1 == v && e.2 == u))

/-- One expansion step of reachability: add every vertex adjacent to the
current set. -/
def reachStep (G : Graph) (s : List Nat) : List Nat :=
  (s ++ G.vertices.filter (fun v => s.any (fun u => adjacent G u v))).dedup

/-- Vertices reachable from the first vertex (fixpoint after `|V|` steps). -/
def reachSet (G : Graph) : List Nat :=
  match G.vertices with
  | [] => []
  | v :: _ => Nat.iterate (reachStep G) G.vertices.length [v]

/-- Modelled from the spec: the Graph Store's connectivity query
(spec 6).  Every vertex is reachable from the first one. -/
def isConnected (G : Graph) : Bool :=
  G.vertices.all (fun v => (reachSet G).contains v)

/-- Modelled from the spec: the Matching-Covered Validator
`Graph.is_matching_covered` (spec 4.3), the external routine invoked by
`_upgrade_from_graph`.  Structural checks (trivial, loops, connectivity)
raise; a supplied matching is validated as (a) a matching, (b) a matching
of the graph, (c) perfect, each failure raising its own error (messages as
documented in the source's doctests); otherwise the Matching Finder runs,
and NotFound yields the answer `false` (the source's doctests show
odd-order graphs surfacing as `input graph is not matching covered` at the
construction boundary, so NotFound is an answer, not an exception);
finally the certifier's verdicts are aggregated. -/
def is_matching_covered (G : Graph) (matching : Option (List (Nat × Nat)))
    (_opts : Opts) : Except String Bool :=
  if G.vertices.length ≤ 1 then .error "the graph is trivial"
  else if hasLoopEdge G then
    .error "loops are not allowed in matching covered graphs"
  else if isConnected G then
    match matching with
    | some M =>
        if isMatching M then
          if isMatchingOfGraph G M then
            if coversAll G M then .ok (noForbidden G M)
            else .error "the input is not a perfect matching of the graph"
          else .error "the input is not a matching of the graph"
        else .error "the input is not a matching"
    | none =>
        match find_perfect_matching G with
        | some M => .ok (noForbidden G M)
        | none => .ok false
  else .error "the graph is not connected"

/-- Modelled from the spec: the external `Graph.__init__` as invoked by
`MatchingCoveredGraph.__init__` with `kwds['loops'] = False`: it copies
the data's vertices and edges and, with loops disallowed, rejects data
containing a self-loop (spec 6: loop-rejection at the boundary is never
bypassed). -/
def Graph_init (data : Graph) : Except String Graph :=
  if hasLoopEdge data then
    .error "loops are not allowed in graph without loops"
  else .ok { vertices := data.vertices, edges := data.edges, loops := false }

/-- `MatchingCoveredGraph._upgrade_from_graph`: call the validator; a
`false` answer becomes `input graph is not matching covered`; validator
errors propagate unchanged. -/
def upgrade_from_graph (H : Graph) (matching : Option (List (Nat × Nat)))
    (opts : Opts) : Except String Graph :=
  match is_matching_covered H matching opts with
  | .error e => .error e
  | .ok true => .ok H
  | .ok false => .error "input graph is not matching covered"

/-- The `data` argument of the constructor: `None`, a plain `Graph`, an
already-certified `MatchingCoveredGraph` (carrying its underlying graph),
or data of any other type. -/
inductive Data where
  | noData
  | graph (G : Graph)
  | matchingCoveredGraph (G : Graph)
  | unsupported
deriving DecidableEq

/-- `MatchingCoveredGraph.__init__`: first the `loops` keyword is
inspected (`loops=True` is refused before anything else and the key is
forced to `False`), then the dispatch on `data`: `None` is trivial; an
existing `MatchingCoveredGraph` is copied by `Graph.__init__` with no
further validation; a `Graph` is copied and then upgraded; anything else
is of unknown type. -/
def MatchingCoveredGraph (data : Data)
    (matching : Option (List (Nat × Nat))) (opts : Opts)
    (loopsKw : Option Bool) : Except String Graph :=
  if loopsKw = some true then
    .error "loops are not allowed in matching covered graphs"
  else
    match data with
    | .noData => .error "the graph is trivial"
    | .matchingCoveredGraph G => Graph_init G
    | .graph G =>
        match Graph_init G with
        | .error e => .error e
        | .ok H => upgrade_from_graph H matching opts
    | .unsupported => .error "input data is of unknown type"

/-- `MatchingCoveredGraph.allow_loops(new, check=True)`: `new = True`
raises; any other value is a silent no-op (the overriding method never
delegates to the superclass and never reads `check`). -/
def allow_loops (G : Graph) (new : Bool) (_check : Bool) :
    Except String Graph :=
  if new then .error "loops are not allowed in matching covered graphs"
  else .ok G

/-- `GenericGraph.allows_loops()`: the loop-policy flag. -/
def allows_loops (G : Graph) : Bool :=
  G.loops

/-- Append a vertex if it is not already present. -/
def addVertex (vs : List Nat) (v : Nat) : List Nat :=
  if vs.contains v then vs else vs ++ [v]

/-- Modelled from the spec: the Graph Store's `add_edge` (spec 6):
loop-rejection at edge-insertion time — inserting `(v, v)` while the loop
flag is off raises (message as in the source's doctest), otherwise the
edge and any missing endpoints are added. -/
def add_edge (G : Graph) (u v : Nat) : Except String Graph :=
  if u == v && !G.loops then
    .error s!"cannot add edge from {u} to {v} in graph without loops"
  else .ok { vertices := addVertex (addVertex G.vertices u) v,
             edges := G.edges ++ [(u, v)],
             loops := G.loops }

/-- The states a `MatchingCoveredGraph` object can reach through the
operations modelled here: a successful construction, followed by any
sequence of `add_edge` and `allow_loops` calls. -/
inductive ReachableMCG : Graph → Prop where
  | construct (d : Data) (m : Option (List (Nat × Nat))) (o : Opts)
      (kw : Option Bool) (H : Graph) :
      MatchingCoveredGraph d m o kw = .ok H → ReachableMCG H
  | addEdge (G : Graph) (u v : Nat) (H : Graph) :
      ReachableMCG G → add_edge G u v = .ok H → ReachableMCG H
  | allowLoops (G : Graph) (b c : Bool) (H : Graph) :
      ReachableMCG G → allow_loops G b c = .ok H → ReachableMCG H

/-! ### Concrete graphs used as witnesses -/

/-- The 4-cycle 0-1-2-3-0 (matching covered). -/
def c4g : Graph :=
  { vertices := [0, 1, 2, 3], edges := [(0, 1), (1, 2), (2, 3), (0, 3)],
    loops := false }

/-- The complete graph on three vertices (odd order). -/
def k3g : Graph :=
  { vertices := [0, 1, 2], edges := [(0, 1), (0, 2), (1, 2)],
    loops := false }

/-- Two triangles joined by the bridge (2,3): connected, has a perfect
matching, but the triangle edges off the bridge are forbidden. -/
def h6g : Graph :=
  { vertices := [0, 1, 2, 3, 4, 5],
    edges := [(0, 1), (0, 2), (1, 2), (2, 3), (3, 4), (3, 5), (4, 5)],
    loops := false }

/-- The path 0-1-2: loop-free but not matching covered. -/
def p3g : Graph :=
  { vertices := [0, 1, 2], edges := [(0, 1), (1, 2)], loops := false }

/-- Two disjoint edges: disconnected. -/
def discg : Graph :=
  { vertices := [0, 1, 2, 3], edges := [(0, 1), (2, 3)], loops := false }

/-- A single-vertex graph. -/
def g1 : Graph :=
  { vertices := [0], edges := [], loops := false }

/-- One perfect matching of the 4-cycle. -/
def pmA : List (Nat × Nat) := [(0, 1), (2, 3)]

/-- The other perfect matching of the 4-cycle. -/
def pmB : List (Nat × Nat) := [(1, 2), (0, 3)]

/-! ### Bridging lemmas between the executable checks and propositions -/

theorem loopFree_iff (G : Graph) :
    loopFree G = true ↔ ∀ e ∈ G.edges, e.1 ≠ e.2 := by
  simp [loopFree, List.all_eq_true, bne_iff_ne]

theorem hasLoopEdge_false_iff (G : Graph) :
    hasLoopEdge G = false ↔ ∀ e ∈ G.edges, e.1 ≠ e.2 := by
  rw [← Bool.not_eq_true]
  simp only [hasLoopEdge, List.any_eq_true, beq_iff_eq, not_exists, not_and]

theorem loopFree_hasLoopEdge (G : Graph) (h : loopFree G = true) :
    hasLoopEdge G = false :=
  (hasLoopEdge_false_iff G).mpr ((loopFree_iff G).mp h)

/-- A successful `Graph.__init__` call returns the bare copy of the data
with the loop flag off, and certifies that the data had no loop edge. -/
theorem Graph_init_ok {G H : Graph} (h : Graph_init G = .ok H) :
    H = ⟨G.vertices, G.edges, false⟩ ∧ hasLoopEdge G = false := by
  unfold Graph_init at h
  split at h
  · exact absurd h (by simp)
  · rename_i hl
    exact ⟨(Except.ok.inj h).symm, by simpa using hl⟩

/-- A successful upgrade returns its input unchanged and certifies that
the validator answered `true`. -/
theorem upgrade_ok {H K : Graph} {m : Option (List (Nat × Nat))} {o : Opts}
    (h : upgrade_from_graph H m o = .ok K) :
    K = H ∧ is_matching_covered H m o = .ok true := by
  unfold upgrade_from_graph at h
  split at h
  · exact absurd h (by simp)
  · exact ⟨(Except.ok.inj h).symm, by assumption⟩
  · exact absurd h (by simp)

/-- Constructor dispatch, `data = None` (`loops=True` not supplied). -/
theorem MCG_noData (m : Option (List (Nat × Nat))) (o : Opts)
    (kw : Option Bool) (hkw : kw ≠ some true) :
    MatchingCoveredGraph .noData m o kw = .error "the graph is trivial" := by
  unfold MatchingCoveredGraph
  rw [if_neg hkw]

/-- Constructor dispatch, `data` an existing `MatchingCoveredGraph`:
only the copying `Graph.__init__` runs. -/
theorem MCG_mcg (G : Graph) (m : Option (List (Nat × Nat))) (o : Opts)
    (kw : Option Bool) (hkw : kw ≠ some true) :
    MatchingCoveredGraph (.matchingCoveredGraph G) m o kw = Graph_init G := by
  unfold MatchingCoveredGraph
  rw [if_neg hkw]

/-- Constructor dispatch, `data` a plain `Graph`: copy, then upgrade. -/
theorem MCG_graph (G : Graph) (m : Option (List (Nat × Nat))) (o : Opts)
    (kw : Option Bool) (hkw : kw ≠ some true) :
    MatchingCoveredGraph (.graph G) m o kw =
      match Graph_init G with
      | .error e => .error e
      | .ok H => upgrade_from_graph H m o := by
  unfold MatchingCoveredGraph
  rw [if_neg hkw]

/-- Constructor dispatch, `loops=True` supplied: refused before `data` is
even inspected. -/
theorem MCG_loopsTrue (d : Data) (m : Option (List (Nat × Nat))) (o : Opts) :
    MatchingCoveredGraph d m o (some true)
      = .error "loops are not allowed in matching covered graphs" := by
  unfold MatchingCoveredGraph
  rw [if_pos rfl]

/-- With the `loops` keyword not set to `True` and loop-free data, the
constructor on a plain graph is exactly the upgrade of the copied data. -/
theorem init_graph_eq (G : Graph) (m : Option (List (Nat × Nat))) (o : Opts)
    (kw : Option Bool) (hkw : kw ≠ some true) (hl : hasLoopEdge G = false) :
    MatchingCoveredGraph (.graph G) m o kw
      = upgrade_from_graph ⟨G.vertices, G.edges, false⟩ m o := by
  rw [MCG_graph G m o kw hkw]
  unfold Graph_init
  rw [if_neg (by simp [hl])]

/-- The validator never reads the loop-policy flag of its argument. -/
theorem is_matching_covered_mk (v : List Nat) (es : List (Nat × Nat))
    (b : Bool) (m : Option (List (Nat × Nat))) (o : Opts) :
    is_matching_covered ⟨v, es, b⟩ m o = is_matching_covered ⟨v, es, false⟩ m o :=
  rfl

/-! ### The no-loops invariant of reachable objects -/

/-- Every reachable `MatchingCoveredGraph` state has the loop flag off and
a loop-free edge list: the three boundaries (constructor keyword,
`allow_loops`, `add_edge`) all reject loops. -/
theorem reachable_loopfree {G : Graph} (h : ReachableMCG G) :
    G.loops = false ∧ loopFree G = true := by
  induction h with
  | construct d m o kw H hc =>
      by_cases hkw : kw = some true
      · rw [hkw, MCG_loopsTrue] at hc
        exact absurd hc (by simp)
      · cases d with
        | noData =>
            rw [MCG_noData m o kw hkw] at hc
            exact absurd hc (by simp)
        | unsupported =>
            unfold MatchingCoveredGraph at hc
            rw [if_neg hkw] at hc
            exact absurd hc (by simp)
        | matchingCoveredGraph K =>
            rw [MCG_mcg K m o kw hkw] at hc
            obtain ⟨rfl, hl⟩ := Graph_init_ok hc
            exact ⟨rfl, (loopFree_iff _).mpr ((hasLoopEdge_false_iff K).mp hl)⟩
        | graph K =>
            rw [MCG_graph K m o kw hkw] at hc
            split at hc
            · exact absurd hc (by simp)
            · rename_i H' hG
              obtain ⟨rfl, -⟩ := upgrade_ok hc
              obtain ⟨rfl, hl⟩ := Graph_init_ok hG
              exact ⟨rfl, (loopFree_iff _).mpr ((hasLoopEdge_false_iff K).mp hl)⟩
  | addEdge G u v H hG hadd ih =>
      unfold add_edge at hadd
      by_cases hc : (u == v && !G.loops) = true
      · rw [if_pos hc] at hadd
        exact absurd hadd (by simp)
      · rw [if_neg hc] at hadd
        obtain ⟨hl, hf⟩ := ih
        have hH := Except.ok.inj hadd
        subst hH
        refine ⟨hl, ?_⟩
        rw [loopFree_iff]
        intro e he
        rcases List.mem_append.mp he with he' | he'
        · exact (loopFree_iff G).mp hf e he'
        · have : e = (u, v) := by simpa using he'
          subst this
          simp only [hl, Bool.not_false, Bool.and_true, beq_iff_eq] at hc
          exact hc
  | allowLoops G b c H hG hal ih =>
      unfold allow_loops at hal
      cases b with
      | true => exact absurd hal (by simp)
      | false =>
          simp only [Bool.false_eq_true, if_false] at hal
          have hH := Except.ok.inj hal
          subst hH
          exact ih

/-! ### Perfect matchings cover an even number of vertices -/

/-- Propositional form of `nonadjacent`. -/
def NonadjP (e f : Nat × Nat) : Prop :=
  e.1 ≠ f.1 ∧ e.1 ≠ f.2 ∧ e.2 ≠ f.1 ∧ e.2 ≠ f.2

theorem nonadjacent_iff {e f : Nat × Nat} :
    nonadjacent e f = true ↔ NonadjP e f := by
  simp [nonadjacent, NonadjP, bne_iff_ne, and_assoc]

theorem isMatching_iff : ∀ M : List (Nat × Nat),
    isMatching M = true ↔ M.Pairwise NonadjP
  | [] => by simp [isMatching]
  | e :: es => by
      rw [isMatching, Bool.and_eq_true, List.pairwise_cons, List.all_eq_true,
        isMatching_iff es]
      constructor
      · rintro ⟨h1, h2⟩
        exact ⟨fun f hf => nonadjacent_iff.mp (h1 f hf), h2⟩
      · rintro ⟨h1, h2⟩
        exact ⟨fun f hf => nonadjacent_iff.mpr (h1 f hf), h2⟩

/-- A set of pairwise-nonadjacent non-loop edges whose endpoints exhaust a
duplicate-free vertex list covers exactly twice as many vertices as it has
edges. -/
theorem cover_parity : ∀ (M : List (Nat × Nat)) (vs : List Nat),
    vs.Nodup → M.Pairwise NonadjP → (∀ e ∈ M, e.1 ≠ e.2) →
    (∀ e ∈ M, e.1 ∈ vs ∧ e.2 ∈ vs) →
    (∀ v ∈ vs, ∃ e ∈ M, v = e.1 ∨ v = e.2) →
    vs.length = 2 * M.length := by
  intro M
  induction M with
  | nil =>
      intro vs _ _ _ _ hcov
      have hvs : vs = [] := by
        cases vs with
        | nil => rfl
        | cons v vs =>
            obtain ⟨e, he, -⟩ := hcov v (List.mem_cons_self v vs)
            exact absurd he (List.not_mem_nil e)
      simp [hvs]
  | cons e es ih =>
      intro vs hnd hpw hnl hin hcov
      obtain ⟨h1, h2⟩ := hin e (List.mem_cons_self e es)
      have hne : e.1 ≠ e.2 := hnl e (List.mem_cons_self e es)
      obtain ⟨hadj, hpw'⟩ := List.pairwise_cons.mp hpw
      have hnd1 : (vs.erase e.1).Nodup := hnd.erase e.1
      have he2 : e.2 ∈ vs.erase e.1 := (List.mem_erase_of_ne hne.symm).mpr h2
      have ihres := ih ((vs.erase e.1).erase e.2) (hnd1.erase e.2) hpw'
        (fun f hf => hnl f (List.mem_cons_of_mem e hf))
        (by
          intro f hf
          obtain ⟨hf1, hf2⟩ := hin f (List.mem_cons_of_mem e hf)
          obtain ⟨ha, hb, hc, hd⟩ := hadj f hf
          constructor
          · exact (List.mem_erase_of_ne (Ne.symm hc)).mpr
              ((List.mem_erase_of_ne (Ne.symm ha)).mpr hf1)
          · exact (List.mem_erase_of_ne (Ne.symm hd)).mpr
              ((List.mem_erase_of_ne (Ne.symm hb)).mpr hf2))
        (by
          intro v hv
          obtain ⟨hv2, hv1'⟩ := (hnd1.mem_erase_iff).mp hv
          obtain ⟨hv1, hvmem⟩ := (hnd.mem_erase_iff).mp hv1'
          obtain ⟨f, hf, hvf⟩ := hcov v hvmem
          rcases List.mem_cons.mp hf with rfl | hf'
          · rcases hvf with rfl | rfl
            · exact absurd rfl hv1
            · exact absurd rfl hv2
          · exact ⟨f, hf', hvf⟩)
      have l1 : (vs.erase e.1).length = vs.length - 1 :=
        List.length_erase_of_mem h1
      have l2 : ((vs.erase e.1).erase e.2).length = (vs.erase e.1).length - 1 :=
        List.length_erase_of_mem he2
      have hpos1 : 0 < vs.length := List.length_pos.mpr (by
        intro hnil; rw [hnil] at h1; exact (List.not_mem_nil e.1) h1)
      have hpos2 : 0 < (vs.erase e.1).length := List.length_pos.mpr (by
        intro hnil; rw [hnil] at he2; exact (List.not_mem_nil e.2) he2)
      simp only [List.length_cons]
      omega

/-- Any perfect matching of a well-formed loop-free graph pairs up the
vertices: the order is twice the matching size. -/
theorem perfect_matching_length (G : Graph) (M : List (Nat × Nat))
    (hnd : G.vertices.Nodup)
    (hwf : ∀ e ∈ G.edges, e.1 ∈ G.vertices ∧ e.2 ∈ G.vertices)
    (hnl : ∀ e ∈ G.edges, e.1 ≠ e.2)
    (hpm : isPerfectMatchingOf G M = true) :
    G.vertices.length = 2 * M.length := by
  unfold isPerfectMatchingOf at hpm
  rw [Bool.and_eq_true, Bool.and_eq_true] at hpm
  obtain ⟨⟨hm, hsub⟩, hcov⟩ := hpm
  have hedge : ∀ e ∈ M, ∃ f ∈ G.edges,
      (f.1 = e.1 ∧ f.2 = e.2) ∨ (f.1 = e.2 ∧ f.2 = e.1) := by
    intro e he
    have := (List.all_eq_true.mp hsub) e he
    obtain ⟨f, hf, hb⟩ := List.any_eq_true.mp this
    refine ⟨f, hf, ?_⟩
    rw [Bool.or_eq_true] at hb
    rcases hb with h | h <;>
      rw [Bool.and_eq_true, beq_iff_eq, beq_iff_eq] at h
    · exact Or.inl h
    · exact Or.inr h
  apply cover_parity M G.vertices hnd ((isMatching_iff M).mp hm)
  · intro e he
    obtain ⟨f, hf, hor⟩ := hedge e he
    have := hnl f hf
    rcases hor with ⟨ha, hb⟩ | ⟨ha, hb⟩
    · rw [ha, hb] at this; exact this
    · rw [ha, hb] at this; exact fun hh => this (hh.symm)
  · intro e he
    obtain ⟨f, hf, hor⟩ := hedge e he
    obtain ⟨hf1, hf2⟩ := hwf f hf
    rcases hor with ⟨ha, hb⟩ | ⟨ha, hb⟩
    · rw [ha] at hf1; rw [hb] at hf2; exact ⟨hf1, hf2⟩
    · rw [ha] at hf1; rw [hb] at hf2; exact ⟨hf2, hf1⟩
  · intro v hv
    have := (List.all_eq_true.mp hcov) v hv
    obtain ⟨e, he, hb⟩ := List.any_eq_true.mp this
    refine ⟨e, he, ?_⟩
    unfold covers at hb
    rw [Bool.or_eq_true] at hb
    rcases hb with h | h
    · exact Or.inl (beq_iff_eq.mp h)
    · exact Or.inr (beq_iff_eq.mp h)

/-- A graph of odd order has no perfect matching: the Matching Finder
reports NotFound. -/
theorem odd_no_pm (G : Graph)
    (hnd : G.vertices.Nodup)
    (hwf : ∀ e ∈ G.edges, e.1 ∈ G.vertices ∧ e.2 ∈ G.vertices)
    (hnl : ∀ e ∈ G.edges, e.1 ≠ e.2)
    (hodd : G.vertices.length % 2 = 1) :
    find_perfect_matching G = none := by
  cases h : find_perfect_matching G with
  | none => rfl
  | some M =>
      exfalso
      have hp : isPerfectMatchingOf G M = true :=
        List.find?_some h
      have := perfect_matching_length G M hnd hwf hnl hp
      omega

/-! ### The certifier answer does not depend on the witnessing matching -/

theorem all_map_eq {A B : Type} (l : List A) (f : A → B) (p : B → Bool) :
    (l.map f).all p = l.all (fun x => p (f x)) := by
  induction l with
  | nil => rfl
  | cons a l ih => simp [List.map_cons, List.all_cons, ih]

theorem all_congr_eq {A : Type} (l : List A) (f g : A → Bool)
    (h : ∀ x ∈ l, f x = g x) : l.all f = l.all g := by
  induction l with
  | nil => rfl
  | cons a l ih =>
      rw [List.all_cons, List.all_cons, h a (List.mem_cons_self a l),
        ih (fun x hx => h x (List.mem_cons_of_mem a hx))]

/-- For any perfect matching found among the edge sublists, the
aggregated verdict equals the matching-covered property itself; in
particular idempotent runs produce identical verdicts. -/
theorem noForbidden_eq_certifyAll (G : Graph) (M : List (Nat × Nat))
    (hmem : M ∈ G.edges.sublists) (hpm : isPerfectMatchingOf G M = true) :
    noForbidden G M = certifyAll G := by
  unfold noForbidden certifyAll classify_edges
  rw [all_map_eq]
  apply all_congr_eq
  intro e he
  by_cases hem : edgeMem e M = true
  · rw [if_pos hem]
    have hex : existsPMContaining G e = true :=
      List.any_eq_true.mpr ⟨M, hmem, by rw [hpm, hem]; rfl⟩
    rw [hex]
    rfl
  · rw [if_neg hem]
    by_cases hex : existsPMContaining G e = true
    · rw [if_pos hex, hex]
      rfl
    · rw [if_neg hex]
      have hex' : existsPMContaining G e = false := by simpa using hex
      rw [hex']
      rfl

/-! ### Behaviour of the validator on each input class -/

/-- On a nontrivial, loop-free, connected graph with no supplied matching
and at least one perfect matching, the validator answers exactly the
matching-covered property. -/
theorem validator_none_found (G : Graph) (o : Opts)
    (h2 : 2 ≤ G.vertices.length) (hl : hasLoopEdge G = false)
    (hc : isConnected G = true) (hpm : hasPerfectMatching G = true) :
    is_matching_covered G none o = .ok (certifyAll G) := by
  obtain ⟨M, hM⟩ := Option.isSome_iff_exists.mp hpm
  unfold is_matching_covered
  rw [if_neg (by omega), if_neg (by simp [hl]), if_pos hc]
  show (match find_perfect_matching G with
        | some M => Except.ok (noForbidden G M)
        | none => Except.ok false) = Except.ok (certifyAll G)
  rw [hM]
  show Except.ok (noForbidden G M) = Except.ok (certifyAll G)
  rw [noForbidden_eq_certifyAll G M (List.mem_of_find?_eq_some hM)
    (List.find?_some hM)]

/-- On a nontrivial, loop-free, connected graph with no supplied matching
and no perfect matching at all, the validator answers `false`. -/
theorem validator_none_notfound (G : Graph) (o : Opts)
    (h2 : 2 ≤ G.vertices.length) (hl : hasLoopEdge G = false)
    (hc : isConnected G = true) (hn : find_perfect_matching G = none) :
    is_matching_covered G none o = .ok false := by
  unfold is_matching_covered
  rw [if_neg (by omega), if_neg (by simp [hl]), if_pos hc]
  show (match find_perfect_matching G with
        | some M => Except.ok (noForbidden G M)
        | none => Except.ok false) = Except.ok false
  rw [hn]

/-- Matching validation, failure (a): not a matching. -/
theorem validator_not_matching (G : Graph) (M : List (Nat × Nat)) (o : Opts)
    (h2 : 2 ≤ G.vertices.length) (hl : hasLoopEdge G = false)
    (hc : isConnected G = true) (hm : isMatching M = false) :
    is_matching_covered G (some M) o = .error "the input is not a matching" := by
  unfold is_matching_covered
  rw [if_neg (by omega), if_neg (by simp [hl]), if_pos hc]
  show (if isMatching M = true then _ else _) = _
  rw [if_neg (by simp [hm])]

/-- Matching validation, failure (b): not a matching of the graph. -/
theorem validator_not_of_graph (G : Graph) (M : List (Nat × Nat)) (o : Opts)
    (h2 : 2 ≤ G.vertices.length) (hl : hasLoopEdge G = false)
    (hc : isConnected G = true) (hm : isMatching M = true)
    (hg : isMatchingOfGraph G M = false) :
    is_matching_covered G (some M) o
      = .error "the input is not a matching of the graph" := by
  unfold is_matching_covered
  rw [if_neg (by omega), if_neg (by simp [hl]), if_pos hc]
  show (if isMatching M = true then _ else _) = _
  rw [if_pos hm, if_neg (by simp [hg])]

/-- Matching validation, failure (c): not a perfect matching. -/
theorem validator_not_perfect (G : Graph) (M : List (Nat × Nat)) (o : Opts)
    (h2 : 2 ≤ G.vertices.length) (hl : hasLoopEdge G = false)
    (hc : isConnected G = true) (hm : isMatching M = true)
    (hg : isMatchingOfGraph G M = true) (hp : coversAll G M = false) :
    is_matching_covered G (some M) o
      = .error "the input is not a perfect matching of the graph" := by
  unfold is_matching_covered
  rw [if_neg (by omega), if_neg (by simp [hl]), if_pos hc]
  show (if isMatching M = true then _ else _) = _
  rw [if_pos hm, if_pos hg, if_neg (by simp [hp])]

/-- Inversion: if the validator returns any answer on a supplied
matching, that matching passed all three validation checks. -/
theorem validator_some_ok {G : Graph} {M : List (Nat × Nat)} {o : Opts}
    {b : Bool} (h : is_matching_covered G (some M) o = .ok b) :
    isMatching M = true ∧ isMatchingOfGraph G M = true
      ∧ coversAll G M = true ∧ b = noForbidden G M := by
  unfold is_matching_covered at h
  split at h
  · exact absurd h (by simp)
  split at h
  · exact absurd h (by simp)
  split at h
  · split at h
    · rename_i M' heq
      obtain rfl : M = M' := Option.some.inj heq
      split at h
      · split at h
        · split at h
          · exact ⟨by assumption, by assumption, by assumption,
              (Except.ok.inj h).symm⟩
          · exact absurd h (by simp)
        · exact absurd h (by simp)
      · exact absurd h (by simp)
    · rename_i heq
      exact absurd heq (by simp)
  · exact absurd h (by simp)

/-- The validator rejects a trivial graph before anything else. -/
theorem validator_trivial (G : Graph) (m : Option (List (Nat × Nat)))
    (o : Opts) (h1 : G.vertices.length ≤ 1) :
    is_matching_covered G m o = .error "the graph is trivial" := by
  unfold is_matching_covered
  rw [if_pos h1]

/-- Upgrading propagates a validator error unchanged. -/
theorem upgrade_error {H : Graph} {m : Option (List (Nat × Nat))} {o : Opts}
    {s : String} (h : is_matching_covered H m o = .error s) :
    upgrade_from_graph H m o = .error s := by
  unfold upgrade_from_graph
  rw [h]

/-- Upgrading converts the answer `false` into the rejection error. -/
theorem upgrade_ok_false {H : Graph} {m : Option (List (Nat × Nat))}
    {o : Opts} (h : is_matching_covered H m o = .ok false) :
    upgrade_from_graph H m o
      = .error "input graph is not matching covered" := by
  unfold upgrade_from_graph
  rw [h]

/-- Upgrading succeeds, returning the graph itself, exactly on the answer
`true`. -/
theorem upgrade_ok_true {H : Graph} {m : Option (List (Nat × Nat))}
    {o : Opts} (h : is_matching_covered H m o = .ok true) :
    upgrade_from_graph H m o = .ok H := by
  unfold upgrade_from_graph
  rw [h]

/-! ### The claims -/

/-- Claim C1: no operation can introduce a self-loop into a
`MatchingCoveredGraph`: constructing with `loops=True` raises the loop
error, `allow_loops(True)` raises it on an existing object, adding an edge
`(v, v)` fails, and consequently every reachable object is loop-free with
`allows_loops()` returning `False`. -/
theorem C1_no_loops_ever :
    (∀ (d : Data) (m : Option (List (Nat × Nat))) (o : Opts),
        MatchingCoveredGraph d m o (some true)
          = .error "loops are not allowed in matching covered graphs")
    ∧ (∀ (G : Graph) (c : Bool), ReachableMCG G →
        allow_loops G true c
          = .error "loops are not allowed in matching covered graphs")
    ∧ (∀ (G : Graph) (v : Nat), ReachableMCG G →
        add_edge G v v
          = .error s!"cannot add edge from {v} to {v} in graph without loops")
    ∧ (∀ G : Graph, ReachableMCG G →
        allows_loops G = false ∧ loopFree G = true) := by
  refine ⟨fun d m o => MCG_loopsTrue d m o, fun G c _ => rfl, ?_, ?_⟩
  · intro G v hr
    obtain ⟨hl, -⟩ := reachable_loopfree hr
    unfold add_edge
    rw [if_pos (by simp [hl])]
  · intro G hr
    exact ⟨(reachable_loopfree hr).1, (reachable_loopfree hr).2⟩

/-- Witness for C1: the 4-cycle, freshly constructed, rejects
`allow_loops(True)` and `add_edge(0, 0)`, and reports no loops. -/
theorem C1_no_loops_ever_witness :
    allow_loops c4g true true
      = .error "loops are not allowed in matching covered graphs"
    ∧ add_edge c4g 0 0
      = .error "cannot add edge from 0 to 0 in graph without loops"
    ∧ allows_loops c4g = false ∧ loopFree c4g = true := by
  have hr : ReachableMCG c4g :=
    ReachableMCG.construct (.graph c4g) none defaultOpts none c4g (by decide)
  exact ⟨C1_no_loops_ever.2.1 c4g true hr,
    C1_no_loops_ever.2.2.1 c4g 0 hr,
    C1_no_loops_ever.2.2.2 c4g hr⟩

/-- Claim C10: `allow_loops` with a non-`True` argument is a silent no-op
regardless of `check`; only `True` raises; and the `loops=True` keyword is
inspected before `data`, so `MatchingCoveredGraph(None, loops=True)`
raises the loop error, not the trivial-graph error. -/
theorem C10_allow_loops_noop :
    (∀ (G : Graph) (c : Bool), allow_loops G false c = .ok G)
    ∧ (∀ (G : Graph) (c : Bool), allow_loops G true c
        = .error "loops are not allowed in matching covered graphs")
    ∧ (∀ (m : Option (List (Nat × Nat))) (o : Opts),
        MatchingCoveredGraph .noData m o (some true)
          = .error "loops are not allowed in matching covered graphs") :=
  ⟨fun _ _ => rfl, fun _ _ => rfl, fun m o => MCG_loopsTrue .noData m o⟩

/-- Counterexample for C2: the construction attempt
`MatchingCoveredGraph(None, loops=True)` does not raise the trivial-graph
error — the loop keyword is rejected first. -/
theorem C2_counterexample :
    MatchingCoveredGraph Data.noData none defaultOpts (some true)
      = .error "loops are not allowed in matching covered graphs"
    ∧ MatchingCoveredGraph Data.noData none defaultOpts (some true)
      ≠ .error "the graph is trivial" :=
  ⟨by decide, by decide⟩

/-- Claim C2 (amended): provided `loops=True` is not supplied, `None` data
and any loop-free graph of order at most one are rejected with
`the graph is trivial`, and no object is produced. -/
theorem C2_trivial_rejected (m : Option (List (Nat × Nat))) (o : Opts)
    (kw : Option Bool) (hkw : kw ≠ some true) :
    MatchingCoveredGraph Data.noData m o kw = .error "the graph is trivial"
    ∧ (∀ G : Graph, loopFree G = true → G.vertices.length ≤ 1 →
        MatchingCoveredGraph (.graph G) m o kw
          = .error "the graph is trivial") := by
  constructor
  · exact MCG_noData m o kw hkw
  · intro G hlf h1
    rw [init_graph_eq G m o kw hkw (loopFree_hasLoopEdge G hlf)]
    exact upgrade_error (validator_trivial _ m o h1)

/-- Witness for C2 (amended): `None` and the single-vertex graph. -/
theorem C2_trivial_rejected_witness :
    MatchingCoveredGraph Data.noData none defaultOpts none
      = .error "the graph is trivial"
    ∧ MatchingCoveredGraph (.graph g1) none defaultOpts none
      = .error "the graph is trivial" :=
  ⟨(C2_trivial_rejected none defaultOpts none (by decide)).1,
   (C2_trivial_rejected none defaultOpts none (by decide)).2 g1
     (by decide) (by decide)⟩

/-- Counterexample for C3: on a disconnected graph, a supplied edge set
with a shared endpoint is rejected with the connectivity error, not with
`the input is not a matching` — the structural checks run first. -/
theorem C3_counterexample :
    isMatching [(0, 1), (1, 2)] = false
    ∧ MatchingCoveredGraph (.graph discg) (some [(0, 1), (1, 2)])
        defaultOpts none = .error "the graph is not connected"
    ∧ MatchingCoveredGraph (.graph discg) (some [(0, 1), (1, 2)])
        defaultOpts none ≠ .error "the input is not a matching" :=
  ⟨by decide, by decide, by decide⟩

/-- Claim C3 (amended): on graphs passing the structural checks, the
three matching-validation failures are distinguished by three distinct
errors, in the order (a) not a matching, (b) not a matching of the graph,
(c) not perfect; and on every graph whatsoever a supplied matching that
fails to cover some vertex is never accepted. -/
theorem C3_matching_errors (G : Graph) (M : List (Nat × Nat)) (o : Opts)
    (kw : Option Bool) (hkw : kw ≠ some true) (hlf : loopFree G = true)
    (h2 : 2 ≤ G.vertices.length) (hc : isConnected G = true) :
    (isMatching M = false →
        MatchingCoveredGraph (.graph G) (some M) o kw
          = .error "the input is not a matching")
    ∧ (isMatching M = true → isMatchingOfGraph G M = false →
        MatchingCoveredGraph (.graph G) (some M) o kw
          = .error "the input is not a matching of the graph")
    ∧ (isMatching M = true → isMatchingOfGraph G M = true →
        coversAll G M = false →
        MatchingCoveredGraph (.graph G) (some M) o kw
          = .error "the input is not a perfect matching of the graph")
    ∧ (∀ (Gx : Graph) (Mx : List (Nat × Nat)) (ox : Opts)
        (kwx : Option Bool) (H : Graph), coversAll Gx Mx = false →
        MatchingCoveredGraph (.graph Gx) (some Mx) ox kwx ≠ .ok H) := by
  have hle := loopFree_hasLoopEdge G hlf
  refine ⟨?_, ?_, ?_, ?_⟩
  · intro hm
    rw [init_graph_eq G (some M) o kw hkw hle]
    exact upgrade_error (validator_not_matching _ M o h2 hle hc hm)
  · intro hm hg
    rw [init_graph_eq G (some M) o kw hkw hle]
    exact upgrade_error (validator_not_of_graph _ M o h2 hle hc hm hg)
  · intro hm hg hp
    rw [init_graph_eq G (some M) o kw hkw hle]
    exact upgrade_error (validator_not_perfect _ M o h2 hle hc hm hg hp)
  · intro Gx Mx ox kwx H hcov hok
    by_cases hkwx : kwx = some true
    · rw [hkwx, MCG_loopsTrue] at hok
      exact absurd hok (by simp)
    · rw [MCG_graph Gx (some Mx) ox kwx hkwx] at hok
      split at hok
      · exact absurd hok (by simp)
      · rename_i Hx hG
        obtain ⟨-, hv⟩ := upgrade_ok hok
        obtain ⟨rfl, -⟩ := Graph_init_ok hG
        obtain ⟨-, -, hcov', -⟩ := validator_some_ok hv
        have hcc : coversAll Gx Mx = true := hcov'
        rw [hcov] at hcc
        exact Bool.noConfusion hcc

/-- Witness for C3 (amended): the three rejections and the non-acceptance
of a non-covering matching, all on the 4-cycle. -/
theorem C3_matching_errors_witness :
    MatchingCoveredGraph (.graph c4g) (some [(0, 1), (1, 2)]) defaultOpts
      none = .error "the input is not a matching"
    ∧ MatchingCoveredGraph (.graph c4g) (some [(0, 2), (1, 3)]) defaultOpts
      none = .error "the input is not a matching of the graph"
    ∧ MatchingCoveredGraph (.graph c4g) (some [(0, 1)]) defaultOpts
      none = .error "the input is not a perfect matching of the graph"
    ∧ MatchingCoveredGraph (.graph c4g) (some [(0, 1)]) defaultOpts
      none ≠ .ok c4g := by
  refine ⟨(C3_matching_errors c4g [(0, 1), (1, 2)] defaultOpts none
      (by decide) (by decide) (by decide) (by decide)).1 (by decide),
    (C3_matching_errors c4g [(0, 2), (1, 3)] defaultOpts none
      (by decide) (by decide) (by decide) (by decide)).2.1
      (by decide) (by decide),
    (C3_matching_errors c4g [(0, 1)] defaultOpts none
      (by decide) (by decide) (by decide) (by decide)).2.2.1
      (by decide) (by decide) (by decide),
    (C3_matching_errors c4g [(0, 1)] defaultOpts none
      (by decide) (by decide) (by decide) (by decide)).2.2.2
      c4g [(0, 1)] defaultOpts none c4g (by decide)⟩

/-- Bridging: the executable well-formedness check. -/
theorem wfEdges_iff (G : Graph) :
    wfEdges G = true
      ↔ ∀ e ∈ G.edges, e.1 ∈ G.vertices ∧ e.2 ∈ G.vertices := by
  simp only [wfEdges, List.all_eq_true, Bool.and_eq_true, List.elem_iff]

/-- Claim C4: a connected nontrivial loop-free graph that has a perfect
matching but some edge in no perfect matching is rejected with
`input graph is not matching covered`; and construction succeeds exactly
when the certification check answers `true`. -/
theorem C4_not_covered_rejected (G : Graph) (o : Opts) (kw : Option Bool)
    (hkw : kw ≠ some true) (hlf : loopFree G = true) :
    (2 ≤ G.vertices.length → isConnected G = true →
      hasPerfectMatching G = true → certifyAll G = false →
      MatchingCoveredGraph (.graph G) none o kw
        = .error "input graph is not matching covered")
    ∧ ((∃ H, MatchingCoveredGraph (.graph G) none o kw = .ok H)
        ↔ is_matching_covered G none o = .ok true) := by
  have hle := loopFree_hasLoopEdge G hlf
  constructor
  · intro h2 hc hpm hfor
    rw [init_graph_eq G none o kw hkw hle]
    apply upgrade_ok_false
    have hval := validator_none_found ⟨G.vertices, G.edges, false⟩ o h2 hle
      hc hpm
    rw [hval]
    have hf : certifyAll (⟨G.vertices, G.edges, false⟩ : Graph) = false := hfor
    rw [hf]
  · constructor
    · rintro ⟨H, hok⟩
      rw [init_graph_eq G none o kw hkw hle] at hok
      obtain ⟨-, hv⟩ := upgrade_ok hok
      exact hv
    · intro hv
      rw [init_graph_eq G none o kw hkw hle]
      exact ⟨_, upgrade_ok_true hv⟩

/-- Witness for C4: two triangles joined by a bridge — a perfect matching
exists, a triangle edge is in none, and construction is rejected. -/
theorem C4_not_covered_rejected_witness :
    hasPerfectMatching h6g = true ∧ certifyAll h6g = false
    ∧ MatchingCoveredGraph (.graph h6g) none defaultOpts none
        = .error "input graph is not matching covered" :=
  ⟨by decide, by decide,
    (C4_not_covered_rejected h6g defaultOpts none (by decide)
        (by decide)).1 (by decide) (by decide) (by decide) (by decide)⟩

/-- Counterexample for C5: the odd complete graph `K3` is rejected with
exactly the same error as an even-order graph that merely fails coverage
(`h6g` has a perfect matching, `K3` has none) — no distinct
no-perfect-matching reason is surfaced at the construction boundary. -/
theorem C5_counterexample :
    k3g.vertices.length % 2 = 1
    ∧ hasPerfectMatching k3g = false
    ∧ hasPerfectMatching h6g = true
    ∧ MatchingCoveredGraph (.graph k3g) none defaultOpts none
        = .error "input graph is not matching covered"
    ∧ MatchingCoveredGraph (.graph k3g) none defaultOpts none
        = MatchingCoveredGraph (.graph h6g) none defaultOpts none :=
  ⟨by decide, by decide, by decide, by decide, by decide⟩

/-- Claim C5 (amended): every well-formed connected loop-free graph of
odd order (at least 3) is rejected, but with the very same
`input graph is not matching covered` error used for non-covered graphs;
no distinct reason is surfaced. -/
theorem C5_odd_order_rejected (G : Graph) (o : Opts) (kw : Option Bool)
    (hkw : kw ≠ some true) (hnd : G.vertices.Nodup) (hwf : wfEdges G = true)
    (hlf : loopFree G = true) (hc : isConnected G = true)
    (h2 : 2 ≤ G.vertices.length) (hodd : G.vertices.length % 2 = 1) :
    MatchingCoveredGraph (.graph G) none o kw
      = .error "input graph is not matching covered" := by
  have hle := loopFree_hasLoopEdge G hlf
  rw [init_graph_eq G none o kw hkw hle]
  apply upgrade_ok_false
  apply validator_none_notfound _ o h2 hle hc
  apply odd_no_pm
  · exact hnd
  · exact (wfEdges_iff G).mp hwf
  · exact (loopFree_iff G).mp hlf
  · exact hodd

/-- Witness for C5 (amended): the complete graph on three vertices. -/
theorem C5_odd_order_rejected_witness :
    k3g.vertices.length % 2 = 1
    ∧ MatchingCoveredGraph (.graph k3g) none defaultOpts none
        = .error "input graph is not matching covered" :=
  ⟨by decide,
    C5_odd_order_rejected k3g defaultOpts none (by decide) (by decide)
      (by decide) (by decide) (by decide) (by decide) (by decide)⟩

/-- Claim C6: constructing `MatchingCoveredGraph(H)` from an
already-accepted object `H` always succeeds and returns an object equal
to `H` — same vertices, edges, and flags. -/
theorem C6_reconstruction_identity (H : Graph)
    (m : Option (List (Nat × Nat))) (o : Opts) (h : ReachableMCG H) :
    MatchingCoveredGraph (.matchingCoveredGraph H) m o none = .ok H := by
  obtain ⟨hfl, hlf⟩ := reachable_loopfree h
  rw [MCG_mcg H m o none (by decide)]
  unfold Graph_init
  rw [if_neg (by simp [loopFree_hasLoopEdge H hlf])]
  obtain ⟨v, es, b⟩ := H
  have hb : b = false := hfl
  rw [hb]

/-- Witness for C6: rebuilding the freshly constructed 4-cycle object. -/
theorem C6_reconstruction_identity_witness :
    MatchingCoveredGraph (.matchingCoveredGraph c4g) none defaultOpts none
      = .ok c4g :=
  C6_reconstruction_identity c4g none defaultOpts
    (ReachableMCG.construct (.graph c4g) none defaultOpts none c4g
      (by decide))

/-- Counterexample for C7: two different perfect matchings of the 4-cycle
produce identical constructed objects, and the object is nothing but the
bare graph — so the object cannot retain which witnessing matching was
used; the constructor obtains only a boolean from the certifier. -/
theorem C7_counterexample :
    pmA ≠ pmB
    ∧ isPerfectMatchingOf c4g pmA = true
    ∧ isPerfectMatchingOf c4g pmB = true
    ∧ MatchingCoveredGraph (.graph c4g) (some pmA) defaultOpts none
        = .ok c4g
    ∧ MatchingCoveredGraph (.graph c4g) (some pmA) defaultOpts none
        = MatchingCoveredGraph (.graph c4g) (some pmB) defaultOpts none :=
  ⟨by decide, by decide, by decide, by decide, by decide⟩

/-- Claim C7 (amended): on success the constructed object is exactly the
copied input graph — determined by the graph alone, independent of the
supplied matching, which is used for validation and then discarded; no
matching is stored on the object. -/
theorem C7_no_matching_retained (G : Graph)
    (m : Option (List (Nat × Nat))) (o : Opts) (kw : Option Bool)
    (H : Graph)
    (h : MatchingCoveredGraph (.graph G) m o kw = .ok H) :
    H = ⟨G.vertices, G.edges, false⟩ := by
  by_cases hkw : kw = some true
  · rw [hkw, MCG_loopsTrue] at h
    exact absurd h (by simp)
  · rw [MCG_graph G m o kw hkw] at h
    split at h
    · exact absurd h (by simp)
    · rename_i Hx hG
      obtain ⟨rfl, -⟩ := upgrade_ok h
      exact (Graph_init_ok hG).1

/-- Witness for C7 (amended): the object built from the 4-cycle with the
matching `pmA` is the bare 4-cycle data. -/
theorem C7_no_matching_retained_witness :
    MatchingCoveredGraph (.graph c4g) (some pmA) defaultOpts none
      = .ok ⟨c4g.vertices, c4g.edges, false⟩ := by
  have h : MatchingCoveredGraph (.graph c4g) (some pmA) defaultOpts none
      = .ok c4g := by decide
  rw [h, C7_no_matching_retained c4g (some pmA) defaultOpts none c4g h]

/-- Claim C8: construction has no side effect on the input graph (the
embedding is a pure function of it) and, on success, the certified object
has exactly the input's vertex and edge sets. -/
theorem C8_input_preserved (G : Graph) (m : Option (List (Nat × Nat)))
    (o : Opts) (kw : Option Bool) (H : Graph)
    (h : MatchingCoveredGraph (.graph G) m o kw = .ok H) :
    H.vertices = G.vertices ∧ H.edges = G.edges := by
  by_cases hkw : kw = some true
  · rw [hkw, MCG_loopsTrue] at h
    exact absurd h (by simp)
  · rw [MCG_graph G m o kw hkw] at h
    split at h
    · exact absurd h (by simp)
    · rename_i Hx hG
      obtain ⟨rfl, -⟩ := upgrade_ok h
      obtain ⟨rfl, -⟩ := Graph_init_ok hG
      exact ⟨rfl, rfl⟩

/-- Witness for C8: the object built from the 4-cycle keeps its vertex
and edge sets. -/
theorem C8_input_preserved_witness :
    c4g.vertices = c4g.vertices ∧ c4g.edges = c4g.edges :=
  C8_input_preserved c4g none defaultOpts none c4g (by decide)

/-- Claim C9: with an existing `MatchingCoveredGraph` as data, the
constructor only copies the graph: no validation or re-certification
happens, and the `matching` and solver arguments are ignored entirely, so
even an invalid matching raises no error. -/
theorem C9_mcg_no_validation (H : Graph) (hlf : loopFree H = true) :
    (∀ (m : Option (List (Nat × Nat))) (o : Opts),
        MatchingCoveredGraph (.matchingCoveredGraph H) m o none
          = .ok ⟨H.vertices, H.edges, false⟩)
    ∧ (∀ (m mx : Option (List (Nat × Nat))) (o ox : Opts)
        (kw : Option Bool),
        MatchingCoveredGraph (.matchingCoveredGraph H) m o kw
          = MatchingCoveredGraph (.matchingCoveredGraph H) mx ox kw) := by
  constructor
  · intro m o
    rw [MCG_mcg H m o none (by decide)]
    unfold Graph_init
    rw [if_neg (by simp [loopFree_hasLoopEdge H hlf])]
  · intro m mx o ox kw
    by_cases hkw : kw = some true
    · rw [hkw, MCG_loopsTrue, MCG_loopsTrue]
    · rw [MCG_mcg H m o kw hkw, MCG_mcg H mx ox kw hkw]

/-- Witness for C9: a path graph (not even matching covered) presented as
an existing object, together with an invalid matching, is accepted
without any validation error. -/
theorem C9_mcg_no_validation_witness :
    certifyAll p3g = false
    ∧ isMatching [(0, 0), (0, 1)] = false
    ∧ MatchingCoveredGraph (.matchingCoveredGraph p3g)
        (some [(0, 0), (0, 1)]) defaultOpts none = .ok p3g := by
  refine ⟨by decide, by decide, ?_⟩
  exact (C9_mcg_no_validation p3g (by decide)).1
    (some [(0, 0), (0, 1)]) defaultOpts

end Sage
